import Mathlib

/-!
Shallow embedding of the data-access layer of the bilingual news-homepage
application (tRPC backend over a relational store).

The relational store is modelled as Lean lists held in insertion order
(`serial` primary keys increase along the list).  Each handler from
`src/server/src/handlers/` is translated into a pure Lean function over
that state; SQL clauses are given their standard semantics:
`WHERE` = `List.filter`, `ORDER BY` = a stable sort (`sortByLe` below),
`OFFSET`/`LIMIT` = `List.drop`/`List.take`, `UPDATE ... WHERE` = `List.map`
guarded on the key, `INSERT` = append.  Timestamps are integers, `jsonb`
values in the `tags` column are modelled by `TagsVal` (a JSON array of
strings, a JSON string, or JSON null), and the JavaScript
`JSON.stringify` of a string array is modelled by `jsonStringifyList`.
-/

namespace News

/-! ### Stable sort used to model `ORDER BY`

SQL gives no tie order, but rows come back in insertion order for ties in
practice and the spec relies on that; a stable sort over the
insertion-ordered row list captures it. -/

def insertLe (le : α → α → Bool) (x : α) : List α → List α
  | [] => [x]
  | y :: ys => if le x y then x :: y :: ys else y :: insertLe le x ys

def sortByLe (le : α → α → Bool) : List α → List α
  | [] => []
  | x :: xs => insertLe le x (sortByLe le xs)

/-- Order satisfied by the output of a stable sort over an input whose
original order satisfied `R`: sorted by `le`, with ties (both `le a b`
and `le b a`) still in the original `R` order. -/
def lexRel (le : α → α → Bool) (R : α → α → Prop) (a b : α) : Prop :=
  le a b = true ∧ (le b a = true → R a b)

/-! ### Enumerations from `src/server/src/db/schema.ts` -/

inductive Language
  | zh
  | en
deriving DecidableEq, Repr

inductive Theme
  | light
  | dark
  | system
deriving DecidableEq, Repr

/-- Value held by a `jsonb` column: a JSON array of strings (the intended
shape of `tags`), a JSON string (what a double-stringified write produces),
or JSON null.  Read paths only test `Array.isArray`. -/
inductive TagsVal
  | arr (elems : List String)
  | str (s : String)
  | jnull
deriving DecidableEq, Repr

/-- JavaScript `JSON.stringify` escaping for one character of a string
literal (quote and backslash are escaped; other characters kept). -/
def jsonEscapeChar (c : Char) : String :=
  if c = '"' ∨ c = '\\' then String.mk ['\\', c] else String.mk [c]

def jsonStringifyString (s : String) : String :=
  "\"" ++ String.join (s.toList.map jsonEscapeChar) ++ "\""

/-- Model of `JSON.stringify` applied to a JavaScript string array. -/
def jsonStringifyList (ts : List String) : String :=
  "[" ++ String.intercalate "," (ts.map jsonStringifyString) ++ "]"

/-- Postgres `::text` rendering of the `tags` jsonb column, used by the
search handler's `tags::text ILIKE` condition. -/
def tagsColumnText : TagsVal → String
  | TagsVal.arr l => "[" ++ String.intercalate ", " (l.map jsonStringifyString) ++ "]"
  | TagsVal.str s => jsonStringifyString s
  | TagsVal.jnull => "null"

/-- The read-side normalization `Array.isArray(article.tags) ? article.tags : []`
shared by the list, featured, search and homepage handlers. -/
def readTags : TagsVal → List String
  | TagsVal.arr l => l
  | TagsVal.str _ => []
  | TagsVal.jnull => []

/-! ### Rows (`db/schema.ts` tables) and response shapes (`schema.ts`) -/

structure ArticleRow where
  id : Nat
  title : String
  description : Option String
  content : Option String
  thumbnail_url : Option String
  source_url : String
  author : Option String
  source : String
  score : Int
  comments_count : Int
  published_at : Int
  created_at : Int
  updated_at : Int
  is_featured : Bool
  category_id : Option Nat
  language : Language
  tags : TagsVal
deriving DecidableEq, Repr

/-- Response shape `newsArticleSchema`: identical to the row except that
`tags` is an array of strings. -/
structure NewsArticle where
  id : Nat
  title : String
  description : Option String
  content : Option String
  thumbnail_url : Option String
  source_url : String
  author : Option String
  source : String
  score : Int
  comments_count : Int
  published_at : Int
  created_at : Int
  updated_at : Int
  is_featured : Bool
  category_id : Option Nat
  language : Language
  tags : List String
deriving DecidableEq, Repr

/-- The row-to-response mapping `{...article, tags: Array.isArray(article.tags) ? article.tags : []}`. -/
def rowToNewsArticle (r : ArticleRow) : NewsArticle :=
  { id := r.id
    title := r.title
    description := r.description
    content := r.content
    thumbnail_url := r.thumbnail_url
    source_url := r.source_url
    author := r.author
    source := r.source
    score := r.score
    comments_count := r.comments_count
    published_at := r.published_at
    created_at := r.created_at
    updated_at := r.updated_at
    is_featured := r.is_featured
    category_id := r.category_id
    language := r.language
    tags := readTags r.tags }

structure Category where
  id : Nat
  name : String
  name_zh : Option String
  slug : String
  description : Option String
  icon_name : Option String
  sort_order : Int
  is_active : Bool
  created_at : Int
deriving DecidableEq, Repr

structure UserPreferencesRow where
  id : Nat
  user_id : String
  theme : Theme
  language : Language
  categories_order : List Nat
  created_at : Int
  updated_at : Int
deriving DecidableEq, Repr

/-! ### Validated inputs (zod schemas in `schema.ts`) -/

/-- Shape of `paginationInputSchema` after zod parsing: `limit`/`offset`/`featured_only`
carry their zod defaults, `category_id`/`language` stay optional. -/
structure PaginationInput where
  limit : Nat
  offset : Nat
  category_id : Option Nat
  language : Option Language
  featured_only : Bool
deriving DecidableEq, Repr

/-- Shape of `searchQuerySchema` after zod parsing. -/
structure SearchQuery where
  query : String
  category_id : Option Nat
  language : Option Language
  limit : Nat
  offset : Nat
deriving DecidableEq, Repr

structure CreateNewsArticleInput where
  title : String
  description : Option String
  content : Option String
  thumbnail_url : Option String
  source_url : String
  author : Option String
  source : String
  score : Int
  comments_count : Int
  published_at : Int
  is_featured : Bool
  category_id : Option Nat
  language : Language
  tags : List String
deriving DecidableEq, Repr

/-- Shape of `updateNewsArticleInputSchema`: every field but `id` optional; nullable
optional columns become `Option (Option _)` (`none` = omitted,
`some none` = set to SQL null). -/
structure UpdateNewsArticleInput where
  id : Nat
  title : Option String
  description : Option (Option String)
  content : Option (Option String)
  thumbnail_url : Option (Option String)
  author : Option (Option String)
  score : Option Int
  comments_count : Option Int
  is_featured : Option Bool
  category_id : Option (Option Nat)
  tags : Option (List String)
deriving DecidableEq, Repr

structure UpdateUserPreferencesInput where
  user_id : String
  theme : Option Theme
  language : Option Language
  categories_order : Option (List Nat)
deriving DecidableEq, Repr

/-! ### Filter predicates and orderings used by the handlers -/

/-- Semantics of `ILIKE` with pattern percent-query-percent and no wildcard characters in the query: a
case-insensitive substring test (decidable, hence executable). -/
def ilikeContains (hay pat : String) : Bool :=
  decide (List.IsInfix (pat.toList.map Char.toLower) (hay.toList.map Char.toLower))

def matchCat (c : Option Nat) (a : ArticleRow) : Bool :=
  match c with
  | some cid => decide (a.category_id = some cid)
  | none => true

def matchLang (l : Option Language) (a : ArticleRow) : Bool :=
  match l with
  | some lang => decide (a.language = lang)
  | none => true

/-- Comparator for `ORDER BY published_at DESC`. -/
def pubDescLE (a b : ArticleRow) : Bool :=
  decide (b.published_at ≤ a.published_at)

/-- Comparator for `ORDER BY score DESC, published_at DESC` (featured handler). -/
def featLE (a b : ArticleRow) : Bool :=
  decide (b.score < a.score) || (decide (a.score = b.score) && decide (b.published_at ≤ a.published_at))

/-- Comparator for `ORDER BY sort_order ASC` (categories). -/
def catLE (a b : Category) : Bool :=
  decide (a.sort_order ≤ b.sort_order)

/-! ### Handlers -/

/-- Handler `getCategories` (`handlers/get_categories.ts`): optional `is_active`
filter, then `ORDER BY sort_order ASC`. -/
def getCategories (db : List Category) (activeOnly : Bool) : List Category :=
  sortByLe catLE (if activeOnly then db.filter (fun c => c.is_active) else db)

/-- Handler `getNewsArticles` (`handlers/get_news_articles.ts`): optional
category/language/featured-only filters, `ORDER BY published_at DESC`,
`LIMIT`/`OFFSET`, rows mapped to the response shape. -/
def getNewsArticles (db : List ArticleRow) (input : PaginationInput) : List NewsArticle :=
  ((((sortByLe pubDescLE (db.filter (fun a =>
      matchCat input.category_id a && matchLang input.language a &&
        (!input.featured_only || a.is_featured)))).drop input.offset).take input.limit).map
    rowToNewsArticle)

/-- Handler `getFeaturedArticles` (`handlers/get_featured_articles.ts`):
`is_featured = true` always, optional language filter,
`ORDER BY score DESC, published_at DESC`, `LIMIT limit`. -/
def getFeaturedArticles (db : List ArticleRow) (limit : Nat) (language : Option Language) :
    List NewsArticle :=
  (((sortByLe featLE (db.filter (fun a =>
      a.is_featured && matchLang language a))).take limit).map rowToNewsArticle)

/-- Default applied to the featured-articles limit when the caller supplies
none: the TS parameter default `limit: number = 5` (and the router's zod
`default(5)`). -/
def featuredLimitOrDefault (o : Option Nat) : Nat :=
  match o with
  | some n => n
  | none => 5

/-- Search hit condition from `handlers/search_articles.ts`: `ILIKE` on
title, description, content, and the `tags::text` rendering, OR-ed
(a SQL-null column never matches), AND-ed with the optional
category/language filters. -/
def matchesSearch (q : SearchQuery) (a : ArticleRow) : Bool :=
  (ilikeContains a.title q.query ||
    (match a.description with
      | some d => ilikeContains d q.query
      | none => false) ||
    (match a.content with
      | some c => ilikeContains c q.query
      | none => false) ||
    ilikeContains (tagsColumnText a.tags) q.query) &&
  matchCat q.category_id a && matchLang q.language a

/-- Handler `searchArticles` (`handlers/search_articles.ts`). -/
def searchArticles (db : List ArticleRow) (q : SearchQuery) : List NewsArticle :=
  ((((sortByLe pubDescLE (db.filter (matchesSearch q))).drop q.offset).take q.limit).map
    rowToNewsArticle)

structure HomepageData where
  featured_articles : List NewsArticle
  latest_articles : List NewsArticle
  categories : List Category
  total_articles : Nat
deriving DecidableEq, Repr

/-- Destructuring defaults `const { limit = 20, offset = 0, ... } = input || {}`. -/
def homepageDefaults : PaginationInput :=
  { limit := 20, offset := 0, category_id := none, language := none, featured_only := false }

/-- Handler `getHomepageData` (real body in the repo next to `getCategories`):
four independent queries — featured (is-featured + optional language,
newest first, `LIMIT 10`), latest (all three filters + window, newest
first), active categories by sort order, and a count over the
category/language filters only. -/
def getHomepageData (adb : List ArticleRow) (cdb : List Category)
    (input : Option PaginationInput) : HomepageData :=
  let p := input.getD homepageDefaults
  { featured_articles :=
      ((sortByLe pubDescLE (adb.filter (fun a =>
          a.is_featured && matchLang p.language a))).take 10).map rowToNewsArticle
    latest_articles :=
      ((((sortByLe pubDescLE (adb.filter (fun a =>
          matchCat p.category_id a && matchLang p.language a &&
            (!p.featured_only || a.is_featured)))).drop p.offset).take p.limit).map
        rowToNewsArticle)
    categories := sortByLe catLE (cdb.filter (fun c => c.is_active))
    total_articles :=
      (adb.filter (fun a => matchCat p.category_id a && matchLang p.language a)).length }

/-- Handler `createNewsArticle` (`src/unnamed/part_007`): inserts one row (the
store assigns the serial id and `defaultNow()` timestamps, passed here
explicitly); the `tags` array is serialized once by the driver, so the
column holds a JSON array.  Returns the new store and the response row. -/
def createNewsArticle (db : List ArticleRow) (input : CreateNewsArticleInput)
    (newId : Nat) (now : Int) : List ArticleRow × NewsArticle :=
  let row : ArticleRow :=
    { id := newId
      title := input.title
      description := input.description
      content := input.content
      thumbnail_url := input.thumbnail_url
      source_url := input.source_url
      author := input.author
      source := input.source
      score := input.score
      comments_count := input.comments_count
      published_at := input.published_at
      created_at := now
      updated_at := now
      is_featured := input.is_featured
      category_id := input.category_id
      language := input.language
      tags := TagsVal.arr input.tags }
  (db ++ [row], rowToNewsArticle row)

inductive UpdateError
  | notFound
deriving DecidableEq, Repr

/-- The `set` object built by `updateNewsArticle`: `updated_at` always
refreshed, each supplied field overwritten.  A supplied `tags` list is
passed through `JSON.stringify` before the driver serializes it again, so
the jsonb column receives a JSON string, not an array. -/
def applyUpdate (a : ArticleRow) (input : UpdateNewsArticleInput) (now : Int) : ArticleRow :=
  { a with
    updated_at := now
    title := input.title.getD a.title
    description := input.description.getD a.description
    content := input.content.getD a.content
    thumbnail_url := input.thumbnail_url.getD a.thumbnail_url
    author := input.author.getD a.author
    score := input.score.getD a.score
    comments_count := input.comments_count.getD a.comments_count
    is_featured := input.is_featured.getD a.is_featured
    category_id := input.category_id.getD a.category_id
    tags :=
      match input.tags with
      | none => a.tags
      | some ts => TagsVal.str (jsonStringifyList ts) }

/-- Handler `updateNewsArticle` (`handlers/update_news_article.ts`):
`UPDATE ... WHERE id = input.id RETURNING *`; when no row matched, the
handler throws a not-found error.  Returns the store after the statement
together with the returned row (or the error). -/
def updateNewsArticle (db : List ArticleRow) (input : UpdateNewsArticleInput) (now : Int) :
    List ArticleRow × Except UpdateError ArticleRow :=
  let newDb := db.map (fun a => if a.id = input.id then applyUpdate a input now else a)
  match newDb.find? (fun a => decide (a.id = input.id)) with
  | none => (newDb, Except.error UpdateError.notFound)
  | some a => (newDb, Except.ok a)

/-- Modelled from the spec: the body of `updateUserPreferences` in
`src/server/src/handlers/update_user_preferences.ts` is a placeholder
declaration ("Real code should be implemented here"), so the operation is
taken from spec §4.4 Write and §3: an upsert keyed by the unique
`user_id` — supplied fields overwrite, omitted fields keep their stored
values (or receive the column defaults `theme = system`, `language = zh`,
`categories_order = []` on first creation); `updated_at` is always
refreshed; `created_at` is set on creation and untouched on update.
`newId`/`now` stand for the store-assigned serial id and clock.
`upsertMerge` is the update branch's row: supplied fields overwrite,
omitted fields keep their stored values, `updated_at` refreshed,
`created_at` kept. -/
def upsertMerge (p : UserPreferencesRow) (input : UpdateUserPreferencesInput)
    (now : Int) : UserPreferencesRow :=
  { p with
    theme := input.theme.getD p.theme
    language := input.language.getD p.language
    categories_order := input.categories_order.getD p.categories_order
    updated_at := now }

/-- Modelled from the spec: the creation branch of the missing
`updateUserPreferences` upsert — supplied fields stored, omitted fields
take the column defaults, both timestamps set to now. -/
def freshPref (input : UpdateUserPreferencesInput) (newId : Nat) (now : Int) :
    UserPreferencesRow :=
  { id := newId
    user_id := input.user_id
    theme := input.theme.getD Theme.system
    language := input.language.getD Language.zh
    categories_order := input.categories_order.getD []
    created_at := now
    updated_at := now }

/-- Modelled from the spec: the missing `updateUserPreferences` handler —
an upsert keyed by the unique `user_id` (update the matched row in place,
or append a defaulted fresh row), returning the upserted row. -/
def updateUserPreferences (db : List UserPreferencesRow) (input : UpdateUserPreferencesInput)
    (newId : Nat) (now : Int) : List UserPreferencesRow × UserPreferencesRow :=
  match db.find? (fun p => p.user_id == input.user_id) with
  | some p =>
    (db.map (fun q => if q.user_id == input.user_id then upsertMerge p input now else q),
      upsertMerge p input now)
  | none =>
    (db ++ [freshPref input newId now], freshPref input newId now)

/-- Number of stored preference rows for one user identifier. -/
def prefCount (uid : String) (db : List UserPreferencesRow) : Nat :=
  db.countP (fun p => p.user_id == uid)

/-! ### Concrete sample data used to instantiate the theorems -/

def rowA : ArticleRow :=
  { id := 1, title := "Alpha", description := some "da", content := some "ca"
    thumbnail_url := none, source_url := "https://e.com/1", author := some "A"
    source := "S1", score := 100, comments_count := 3, published_at := 50
    created_at := 1, updated_at := 1, is_featured := true, category_id := some 1
    language := Language.en, tags := TagsVal.arr ["a", "b"] }

def rowB : ArticleRow :=
  { id := 2, title := "Beta", description := none, content := none
    thumbnail_url := none, source_url := "https://e.com/2", author := none
    source := "S2", score := 95, comments_count := 0, published_at := 60
    created_at := 2, updated_at := 2, is_featured := true, category_id := some 2
    language := Language.en, tags := TagsVal.str "oops" }

def rowC : ArticleRow :=
  { id := 3, title := "Gamma", description := some "dc", content := none
    thumbnail_url := none, source_url := "https://e.com/3", author := none
    source := "S3", score := 10, comments_count := 1, published_at := 70
    created_at := 3, updated_at := 3, is_featured := false, category_id := some 1
    language := Language.zh, tags := TagsVal.jnull }

def dbSample : List ArticleRow := [rowA, rowB, rowC]

def pagI : PaginationInput :=
  { limit := 5, offset := 0, category_id := some 1, language := some Language.en
    featured_only := true }

def pagJ : PaginationInput :=
  { limit := 2, offset := 3, category_id := none, language := some Language.en
    featured_only := false }

def pagK : PaginationInput :=
  { limit := 1, offset := 2, category_id := some 1, language := some Language.en
    featured_only := false }

def qAlpha : SearchQuery :=
  { query := "alp", category_id := none, language := none, limit := 20, offset := 0 }

def updMissing : UpdateNewsArticleInput :=
  { id := 99, title := none, description := none, content := none
    thumbnail_url := none, author := none, score := none, comments_count := none
    is_featured := none, category_id := none, tags := none }

def updTags : UpdateNewsArticleInput :=
  { id := 1, title := none, description := none, content := none
    thumbnail_url := none, author := none, score := none, comments_count := none
    is_featured := none, category_id := none, tags := some ["a"] }

def createInp : CreateNewsArticleInput :=
  { title := "New", description := none, content := none, thumbnail_url := none
    source_url := "https://e.com/n", author := none, source := "S", score := 0
    comments_count := 0, published_at := 5, is_featured := false
    category_id := none, language := Language.en, tags := ["a", "b"] }

def catA : Category :=
  { id := 1, name := "A", name_zh := none, slug := "a", description := none
    icon_name := none, sort_order := 2, is_active := true, created_at := 0 }

def catB : Category :=
  { id := 2, name := "B", name_zh := none, slug := "b", description := none
    icon_name := none, sort_order := 0, is_active := false, created_at := 0 }

def catC : Category :=
  { id := 3, name := "C", name_zh := none, slug := "c", description := none
    icon_name := none, sort_order := 2, is_active := true, created_at := 0 }

def prefInput1 : UpdateUserPreferencesInput :=
  { user_id := "u", theme := some Theme.dark, language := some Language.en
    categories_order := some [1, 3, 2] }

/-! ### Lemmas about the stable sort -/

theorem mem_insertLe {le : α → α → Bool} {x a : α} {l : List α} :
    a ∈ insertLe le x l ↔ a = x ∨ a ∈ l := by
  induction l with
  | nil => simp [insertLe]
  | cons y ys ih =>
    simp only [insertLe]
    by_cases h : le x y
    · simp only [if_pos h, List.mem_cons]
    · simp only [if_neg h, List.mem_cons, ih]
      tauto

theorem mem_sortByLe {le : α → α → Bool} {a : α} {l : List α} :
    a ∈ sortByLe le l ↔ a ∈ l := by
  induction l with
  | nil => simp [sortByLe]
  | cons x xs ih =>
    simp only [sortByLe, mem_insertLe, ih, List.mem_cons]

theorem length_insertLe {le : α → α → Bool} (x : α) (l : List α) :
    (insertLe le x l).length = l.length + 1 := by
  induction l with
  | nil => rfl
  | cons y ys ih =>
    simp only [insertLe]
    by_cases h : le x y
    · simp [if_pos h]
    · simp [if_neg h, ih]

theorem length_sortByLe {le : α → α → Bool} (l : List α) :
    (sortByLe le l).length = l.length := by
  induction l with
  | nil => rfl
  | cons x xs ih => simp [sortByLe, length_insertLe, ih]

theorem pairwise_insertLe {le : α → α → Bool} {R : α → α → Prop}
    (trans : ∀ a b c, le a b = true → le b c = true → le a c = true)
    (total : ∀ a b, le a b = true ∨ le b a = true)
    {x : α} {l : List α} (hl : l.Pairwise (lexRel le R)) (hx : ∀ y ∈ l, R x y) :
    (insertLe le x l).Pairwise (lexRel le R) := by
  induction l with
  | nil => simp [insertLe]
  | cons y ys ih =>
    rcases List.pairwise_cons.mp hl with ⟨hy, hys⟩
    simp only [insertLe]
    by_cases hxy : le x y = true
    · rw [if_pos hxy]
      refine List.pairwise_cons.mpr ⟨?_, hl⟩
      intro z hz
      rcases List.mem_cons.mp hz with rfl | hz
      · exact ⟨hxy, fun _ => hx z (List.mem_cons_self _ _)⟩
      · exact ⟨trans _ _ _ hxy (hy z hz).1,
          fun _ => hx z (List.mem_cons.mpr (Or.inr hz))⟩
    · rw [if_neg hxy]
      have hyx : le y x = true := (total x y).resolve_left hxy
      refine List.pairwise_cons.mpr
        ⟨?_, ih hys (fun z hz => hx z (List.mem_cons.mpr (Or.inr hz)))⟩
      intro z hz
      rcases mem_insertLe.mp hz with rfl | hz
      · exact ⟨hyx, fun hxy2 => absurd hxy2 hxy⟩
      · exact hy z hz

theorem pairwise_trivial (l : List α) : l.Pairwise (fun _ _ => True) := by
  induction l with
  | nil => exact List.Pairwise.nil
  | cons x xs ih => exact List.pairwise_cons.mpr ⟨fun _ _ => trivial, ih⟩

/-- Stability plus sortedness: sorting an `R`-ordered list by `le` yields a
list pairwise ordered by `le`, ties still in `R` order. -/
theorem pairwise_lex_sortByLe {le : α → α → Bool}
    (trans : ∀ a b c, le a b = true → le b c = true → le a c = true)
    (total : ∀ a b, le a b = true ∨ le b a = true)
    (R : α → α → Prop) (l : List α) (hl : l.Pairwise R) :
    (sortByLe le l).Pairwise (lexRel le R) := by
  induction l with
  | nil => exact List.Pairwise.nil
  | cons x xs ih =>
    rcases List.pairwise_cons.mp hl with ⟨hx, hxs⟩
    exact pairwise_insertLe trans total (ih hxs)
      (fun y hy => hx y (mem_sortByLe.mp hy))

theorem pairwise_le_sortByLe {le : α → α → Bool}
    (trans : ∀ a b c, le a b = true → le b c = true → le a c = true)
    (total : ∀ a b, le a b = true ∨ le b a = true)
    (l : List α) :
    (sortByLe le l).Pairwise (fun a b => le a b = true) :=
  (pairwise_lex_sortByLe trans total (fun _ _ => True) l (pairwise_trivial l)).imp
    (fun h => h.1)

/-! ### The three `ORDER BY` comparators are total preorders -/

theorem pubDescLE_trans (a b c : ArticleRow) :
    pubDescLE a b = true → pubDescLE b c = true → pubDescLE a c = true := by
  simp only [pubDescLE, decide_eq_true_eq]
  omega

theorem pubDescLE_total (a b : ArticleRow) :
    pubDescLE a b = true ∨ pubDescLE b a = true := by
  simp only [pubDescLE, decide_eq_true_eq]
  omega

theorem featLE_trans (a b c : ArticleRow) :
    featLE a b = true → featLE b c = true → featLE a c = true := by
  simp only [featLE, Bool.or_eq_true, Bool.and_eq_true, decide_eq_true_eq]
  omega

theorem featLE_total (a b : ArticleRow) :
    featLE a b = true ∨ featLE b a = true := by
  simp only [featLE, Bool.or_eq_true, Bool.and_eq_true, decide_eq_true_eq]
  omega

theorem catLE_trans (a b c : Category) :
    catLE a b = true → catLE b c = true → catLE a c = true := by
  simp only [catLE, decide_eq_true_eq]
  omega

theorem catLE_total (a b : Category) :
    catLE a b = true ∨ catLE b a = true := by
  simp only [catLE, decide_eq_true_eq]
  omega

/-- An article in a sorted, windowed, row-mapped query result comes from a
row of the store satisfying the filter. -/
theorem mem_query (le : ArticleRow → ArticleRow → Bool) (p : ArticleRow → Bool)
    (db : List ArticleRow) (off n : Nat) (a : NewsArticle)
    (ha : a ∈ (((sortByLe le (db.filter p)).drop off).take n).map rowToNewsArticle) :
    ∃ r, r ∈ db ∧ p r = true ∧ a = rowToNewsArticle r := by
  rcases List.mem_map.mp ha with ⟨r, hr, rfl⟩
  have hr2 := mem_sortByLe.mp (List.mem_of_mem_drop (List.mem_of_mem_take hr))
  rcases List.mem_filter.mp hr2 with ⟨h1, h2⟩
  exact ⟨r, h1, h2, rfl⟩

/-- Variant of `mem_query` for queries without an `OFFSET` clause. -/
theorem mem_query0 (le : ArticleRow → ArticleRow → Bool) (p : ArticleRow → Bool)
    (db : List ArticleRow) (n : Nat) (a : NewsArticle)
    (ha : a ∈ ((sortByLe le (db.filter p)).take n).map rowToNewsArticle) :
    ∃ r, r ∈ db ∧ p r = true ∧ a = rowToNewsArticle r := by
  apply mem_query le p db 0 n a
  rw [List.drop_zero]
  exact ha

/-! ### Claims -/

/-- C5: an article-update request whose id matches no stored article
rejects with the not-found condition and leaves the stored article set
unchanged — no row is created or modified. -/
theorem C5_update_not_found (db : List ArticleRow) (input : UpdateNewsArticleInput) (now : Int)
    (h : ∀ a ∈ db, a.id ≠ input.id) :
    (updateNewsArticle db input now).1 = db ∧
    (updateNewsArticle db input now).2 = Except.error UpdateError.notFound := by
  have hmap : db.map (fun a => if a.id = input.id then applyUpdate a input now else a) = db := by
    have hcongr : ∀ a ∈ db, (if a.id = input.id then applyUpdate a input now else a) = id a := by
      intro a ha
      simp [if_neg (h a ha)]
    rw [List.map_congr_left hcongr, List.map_id]
  have hfind : db.find? (fun a => decide (a.id = input.id)) = none :=
    List.find?_eq_none.mpr (by
      intro x hx
      simp [h x hx])
  constructor <;> simp [updateNewsArticle, hmap, hfind]

/-- C3: the homepage total count equals the number of stored articles
matching the category and language filters only; requests agreeing on
those two filters get the same count whatever their featured-only flag,
limit, or offset. -/
theorem C3_total_count (adb : List ArticleRow) (cdb : List Category) (i j : PaginationInput)
    (hc : i.category_id = j.category_id) (hl : i.language = j.language) :
    (getHomepageData adb cdb (some i)).total_articles
      = (getHomepageData adb cdb (some j)).total_articles ∧
    (getHomepageData adb cdb (some i)).total_articles
      = (adb.filter (fun a => matchCat i.category_id a && matchLang i.language a)).length := by
  constructor
  · simp [getHomepageData, hc, hl]
  · rfl

/-- C2: homepage featured articles agree between any two requests with the
same language filter (category, offset, limit, featured-only are ignored);
the list holds at most 10 items, each featured and in the requested
language. -/
theorem C2_featured_independent (adb : List ArticleRow) (cdb : List Category)
    (i j : PaginationInput) (h : i.language = j.language) :
    (getHomepageData adb cdb (some i)).featured_articles
      = (getHomepageData adb cdb (some j)).featured_articles ∧
    (getHomepageData adb cdb (some i)).featured_articles.length ≤ 10 ∧
    ∀ a ∈ (getHomepageData adb cdb (some i)).featured_articles,
      a.is_featured = true ∧ ∀ lng, i.language = some lng → a.language = lng := by
  refine ⟨by simp [getHomepageData, h], ?_, ?_⟩
  · simp only [getHomepageData, Option.getD_some, List.length_map]
    exact List.length_take_le _ _
  · intro a ha
    simp only [getHomepageData, Option.getD_some] at ha
    rcases mem_query0 _ _ _ _ _ ha with ⟨r, _, hpred, rfl⟩
    rw [Bool.and_eq_true] at hpred
    rcases hpred with ⟨hf, hlang⟩
    refine ⟨hf, ?_⟩
    intro lng hlng
    rw [hlng] at hlang
    simpa [matchLang] using hlang

/-- C8: the category listing keeps only active rows when `activeOnly` is
true and all rows when it is false, and is always sorted ascending by
sort order with ties in equal sort-order values broken by insertion/id
order (ids increase along the insertion-ordered store). -/
theorem C8_categories (db : List Category) (activeOnly : Bool)
    (hids : db.Pairwise (fun a b => a.id < b.id)) :
    (∀ c ∈ getCategories db true, c.is_active = true) ∧
    (∀ c, c ∈ getCategories db false ↔ c ∈ db) ∧
    (getCategories db activeOnly).Pairwise
      (fun a b => a.sort_order < b.sort_order ∨
        (a.sort_order = b.sort_order ∧ a.id < b.id)) := by
  refine ⟨?_, ?_, ?_⟩
  · intro c hc
    simp only [getCategories, if_pos] at hc
    exact (List.mem_filter.mp (mem_sortByLe.mp hc)).2
  · intro c
    simp [getCategories, mem_sortByLe]
  · have hbl : (if activeOnly = true then db.filter (fun c => c.is_active) else db).Pairwise
        (fun a b => a.id < b.id) := by
      by_cases h : activeOnly = true
      · rw [if_pos h]
        exact List.Pairwise.sublist (List.filter_sublist db) hids
      · rw [if_neg h]
        exact hids
    have hlex := pairwise_lex_sortByLe catLE_trans catLE_total
      (fun a b => a.id < b.id) _ hbl
    simp only [getCategories]
    refine hlex.imp ?_
    intro a b hab
    rcases hab with ⟨h1, h2⟩
    simp only [catLE, decide_eq_true_eq] at h1 h2
    omega

/-- C4: the featured-articles handler returns only featured articles (in
the requested language when one is supplied), sorted by descending score
with descending publish time breaking score ties, truncated to `limit`,
and the limit defaults to 5 when the caller supplies none. -/
theorem C4_featured_handler (db : List ArticleRow) (limit : Nat) (language : Option Language) :
    (∀ a ∈ getFeaturedArticles db limit language,
        a.is_featured = true ∧ ∀ lng, language = some lng → a.language = lng) ∧
    (getFeaturedArticles db limit language).Pairwise
      (fun a b => b.score < a.score ∨ (b.score = a.score ∧ b.published_at ≤ a.published_at)) ∧
    (getFeaturedArticles db limit language).length ≤ limit ∧
    getFeaturedArticles db (featuredLimitOrDefault none) language
      = getFeaturedArticles db 5 language := by
  refine ⟨?_, ?_, ?_, rfl⟩
  · intro a ha
    simp only [getFeaturedArticles] at ha
    rcases mem_query0 _ _ _ _ _ ha with ⟨r, _, hpred, rfl⟩
    rw [Bool.and_eq_true] at hpred
    rcases hpred with ⟨hf, hlang⟩
    refine ⟨hf, ?_⟩
    intro lng hlng
    rw [hlng] at hlang
    simpa [matchLang] using hlang
  · have hs := pairwise_le_sortByLe featLE_trans featLE_total
      (db.filter (fun r => r.is_featured && matchLang language r))
    simp only [getFeaturedArticles]
    rw [List.pairwise_map]
    refine (List.Pairwise.sublist (List.take_sublist _ _) hs).imp ?_
    intro a b hab
    simp only [featLE, Bool.or_eq_true, Bool.and_eq_true, decide_eq_true_eq] at hab
    simp only [rowToNewsArticle]
    omega
  · simp only [getFeaturedArticles, List.length_map]
    exact List.length_take_le _ _

/-- The store after `updateNewsArticle` is the guarded row map, whether or
not a row matched. -/
theorem updateNewsArticle_fst (db : List ArticleRow) (input : UpdateNewsArticleInput)
    (now : Int) :
    (updateNewsArticle db input now).1
      = db.map (fun a => if a.id = input.id then applyUpdate a input now else a) := by
  simp only [updateNewsArticle]
  cases hfind : (db.map fun a => if a.id = input.id then applyUpdate a input now else a).find?
      (fun a => decide (a.id = input.id)) <;> simp [hfind]

/-- C9: round-trip through creation — the created article reads back with
exactly the supplied tags (in particular `["a","b"]` reads back as
`["a","b"]` and an article created with the defaulted empty list reads
back as `[]`), and rows whose stored tags value is not a JSON array
(a JSON string or JSON null) come back from every read handler with an
empty tags array rather than an error. -/
theorem C9_tags_roundtrip (db : List ArticleRow) (input : CreateNewsArticleInput)
    (newId : Nat) (now : Int) (hfresh : ∀ r ∈ db, r.id ≠ newId) :
    ((createNewsArticle db input newId now).2.tags = input.tags) ∧
    (∀ pag : PaginationInput, ∀ a ∈ getNewsArticles (createNewsArticle db input newId now).1 pag,
        a.id = newId → a.tags = input.tags) ∧
    (∀ r : ArticleRow, (∀ l, r.tags ≠ TagsVal.arr l) → (rowToNewsArticle r).tags = []) ∧
    (∀ (db2 : List ArticleRow) (pag : PaginationInput) (q : SearchQuery)
        (lim : Nat) (lang : Option Language),
        (∀ r ∈ db2, ∀ l, r.tags ≠ TagsVal.arr l) →
        (∀ a ∈ getNewsArticles db2 pag, a.tags = []) ∧
        (∀ a ∈ searchArticles db2 q, a.tags = []) ∧
        (∀ a ∈ getFeaturedArticles db2 lim lang, a.tags = [])) := by
  have hnotarr : ∀ r : ArticleRow, (∀ l, r.tags ≠ TagsVal.arr l) → (rowToNewsArticle r).tags = [] := by
    intro r h
    cases htags : r.tags with
    | arr l => exact absurd htags (h l)
    | str s => simp [rowToNewsArticle, htags, readTags]
    | jnull => simp [rowToNewsArticle, htags, readTags]
  refine ⟨rfl, ?_, hnotarr, ?_⟩
  · intro pag a ha hid
    simp only [getNewsArticles, createNewsArticle] at ha
    rcases mem_query _ _ _ _ _ _ ha with ⟨r, hr, _, rfl⟩
    rcases List.mem_append.mp hr with hr | hr
    · exact absurd hid (hfresh r hr)
    · rw [List.mem_singleton] at hr
      subst hr
      rfl
  · intro db2 pag q lim lang hmal
    refine ⟨?_, ?_, ?_⟩
    · intro a ha
      rcases mem_query _ _ _ _ _ _ ha with ⟨r, hr, _, rfl⟩
      exact hnotarr r (hmal r hr)
    · intro a ha
      rcases mem_query _ _ _ _ _ _ ha with ⟨r, hr, _, rfl⟩
      exact hnotarr r (hmal r hr)
    · intro a ha
      rcases mem_query0 _ _ _ _ _ ha with ⟨r, hr, _, rfl⟩
      exact hnotarr r (hmal r hr)

/-- C10: the update path JSON-stringifies a supplied tags list before the
driver serializes it again, so the stored jsonb value is a JSON string,
whereas creation stores the array itself; consequently every list,
search, and featured read of the updated article normalizes its tags to
the empty array — for a non-empty supplied list the create-side
round-trip does not hold through update. -/
theorem C10_update_double_stringify (db : List ArticleRow) (input : UpdateNewsArticleInput)
    (now : Int) (ts : List String) (hts : input.tags = some ts) :
    (∀ (cinp : CreateNewsArticleInput) (nid : Nat) (n2 : Int),
        (createNewsArticle db cinp nid n2).1.map (fun r => r.tags)
          = db.map (fun r => r.tags) ++ [TagsVal.arr cinp.tags]) ∧
    (∀ r ∈ (updateNewsArticle db input now).1, r.id = input.id →
        r.tags = TagsVal.str (jsonStringifyList ts)) ∧
    (∀ pag : PaginationInput, ∀ a ∈ getNewsArticles (updateNewsArticle db input now).1 pag,
        a.id = input.id → a.tags = [] ∧ (ts ≠ [] → a.tags ≠ ts)) ∧
    (∀ q : SearchQuery, ∀ a ∈ searchArticles (updateNewsArticle db input now).1 q,
        a.id = input.id → a.tags = []) ∧
    (∀ (lim : Nat) (lang : Option Language),
        ∀ a ∈ getFeaturedArticles (updateNewsArticle db input now).1 lim lang,
        a.id = input.id → a.tags = []) := by
  have hstored : ∀ r ∈ (updateNewsArticle db input now).1, r.id = input.id →
      r.tags = TagsVal.str (jsonStringifyList ts) := by
    intro r hr hid
    rw [updateNewsArticle_fst] at hr
    rcases List.mem_map.mp hr with ⟨x, hx, rfl⟩
    by_cases hxid : x.id = input.id
    · simp only [if_pos hxid, applyUpdate, hts]
    · rw [if_neg hxid] at hid ⊢
      exact absurd hid hxid
  have hread : ∀ r ∈ (updateNewsArticle db input now).1, ∀ a : NewsArticle,
      a = rowToNewsArticle r → a.id = input.id → a.tags = [] := by
    intro r hr a heq hid
    subst heq
    have hrid : r.id = input.id := hid
    show readTags r.tags = []
    rw [hstored r hr hrid]
    rfl
  refine ⟨?_, hstored, ?_, ?_, ?_⟩
  · intro cinp nid n2
    simp [createNewsArticle]
  · intro pag a ha hid
    rcases mem_query _ _ _ _ _ _ ha with ⟨r, hr, _, rfl⟩
    have htags := hread r hr _ rfl hid
    exact ⟨htags, fun hne => by rw [htags]; exact fun h => hne h.symm⟩
  · intro q a ha hid
    rcases mem_query _ _ _ _ _ _ ha with ⟨r, hr, _, rfl⟩
    exact hread r hr _ rfl hid
  · intro lim lang a ha hid
    rcases mem_query0 _ _ _ _ _ ha with ⟨r, hr, _, rfl⟩
    exact hread r hr _ rfl hid

/-- C7: search returns exactly the articles whose title, description, body
content, or serialized tag list contains the query case-insensitively
(restricted by the optional category/language filters), newest published
first, with the limit/offset window applied: every hit satisfies the
predicate, the output is sorted and capped, the offset/limit window is
coherent with the unwindowed query, and every matching row is returned
when the window is wide enough. -/
theorem C7_search_semantics (db : List ArticleRow) (q : SearchQuery) :
    (∀ a ∈ searchArticles db q, ∃ r, r ∈ db ∧ a = rowToNewsArticle r ∧
        (List.IsInfix (q.query.toList.map Char.toLower) (r.title.toList.map Char.toLower) ∨
         (∃ d, r.description = some d ∧
            List.IsInfix (q.query.toList.map Char.toLower) (d.toList.map Char.toLower)) ∨
         (∃ c, r.content = some c ∧
            List.IsInfix (q.query.toList.map Char.toLower) (c.toList.map Char.toLower)) ∨
         List.IsInfix (q.query.toList.map Char.toLower)
            ((tagsColumnText r.tags).toList.map Char.toLower)) ∧
        (∀ cid, q.category_id = some cid → r.category_id = some cid) ∧
        (∀ lng, q.language = some lng → r.language = lng)) ∧
    (searchArticles db q).Pairwise (fun a b => b.published_at ≤ a.published_at) ∧
    (searchArticles db q).length ≤ q.limit ∧
    (searchArticles db q
      = (searchArticles db
          ⟨q.query, q.category_id, q.language, q.offset + q.limit, 0⟩).drop q.offset) ∧
    (q.offset = 0 → (db.filter (matchesSearch q)).length ≤ q.limit →
      ∀ r ∈ db, matchesSearch q r = true → rowToNewsArticle r ∈ searchArticles db q) := by
  refine ⟨?_, ?_, ?_, ?_, ?_⟩
  · intro a ha
    rcases mem_query _ _ _ _ _ _ ha with ⟨r, hr, hpred, rfl⟩
    rw [matchesSearch, Bool.and_eq_true, Bool.and_eq_true] at hpred
    rcases hpred with ⟨⟨hor, hcat⟩, hlang⟩
    refine ⟨r, hr, rfl, ?_, ?_, ?_⟩
    · simp only [Bool.or_eq_true] at hor
      rcases hor with ((hA | hB) | hC) | hD
      · exact Or.inl (by simpa [ilikeContains] using hA)
      · cases hdesc : r.description with
        | some d =>
          rw [hdesc] at hB
          exact Or.inr (Or.inl ⟨d, rfl, by simpa [ilikeContains] using hB⟩)
        | none =>
          rw [hdesc] at hB
          exact absurd hB (by simp)
      · cases hcont : r.content with
        | some c =>
          rw [hcont] at hC
          exact Or.inr (Or.inr (Or.inl ⟨c, rfl, by simpa [ilikeContains] using hC⟩))
        | none =>
          rw [hcont] at hC
          exact absurd hC (by simp)
      · exact Or.inr (Or.inr (Or.inr (by simpa [ilikeContains] using hD)))
    · intro cid hcid
      rw [hcid] at hcat
      simpa [matchCat] using hcat
    · intro lng hlng
      rw [hlng] at hlang
      simpa [matchLang] using hlang
  · have hs := pairwise_le_sortByLe pubDescLE_trans pubDescLE_total
      (db.filter (matchesSearch q))
    simp only [searchArticles]
    rw [List.pairwise_map]
    have hsub : List.Sublist
        (((sortByLe pubDescLE (db.filter (matchesSearch q))).drop q.offset).take q.limit)
        (sortByLe pubDescLE (db.filter (matchesSearch q))) :=
      (List.take_sublist _ _).trans (List.drop_sublist _ _)
    refine (List.Pairwise.sublist hsub hs).imp ?_
    intro a b hab
    simp only [pubDescLE, decide_eq_true_eq] at hab
    exact hab
  · simp only [searchArticles, List.length_map]
    exact List.length_take_le _ _
  · show ((((sortByLe pubDescLE (db.filter (matchesSearch q))).drop q.offset).take
          q.limit).map rowToNewsArticle)
      = ((((sortByLe pubDescLE (db.filter (matchesSearch q))).drop 0).take
          (q.offset + q.limit)).map rowToNewsArticle).drop q.offset
    rw [List.drop_zero, ← List.map_drop, List.take_drop]
  · intro h0 hlen r hr hmatch
    simp only [searchArticles, h0, List.drop_zero]
    rw [List.take_of_length_le (by rw [length_sortByLe]; exact hlen)]
    exact List.mem_map.mpr ⟨r, mem_sortByLe.mpr (List.mem_filter.mpr ⟨hr, hmatch⟩), rfl⟩

/-- C6 (amended): updating an existing article rewrites exactly the matched
row in place — the update timestamp is refreshed, supplied fields take
the supplied values except that a supplied tags list is stored
JSON-stringified (a JSON string value, not the array), omitted fields and
the non-updatable columns keep their stored values, and all other stored
articles are unchanged. -/
theorem C6_update_frame (db : List ArticleRow) (input : UpdateNewsArticleInput) (now : Int)
    (pre post : List ArticleRow) (p : ArticleRow)
    (hdb : db = pre ++ p :: post) (hp : p.id = input.id)
    (hpre : ∀ a ∈ pre, a.id ≠ input.id) (hpost : ∀ a ∈ post, a.id ≠ input.id) :
    (updateNewsArticle db input now).1 = pre ++ applyUpdate p input now :: post ∧
    (updateNewsArticle db input now).2 = Except.ok (applyUpdate p input now) ∧
    (applyUpdate p input now).updated_at = now ∧
    (input.title = none → (applyUpdate p input now).title = p.title) ∧
    (∀ v, input.title = some v → (applyUpdate p input now).title = v) ∧
    (input.description = none → (applyUpdate p input now).description = p.description) ∧
    (∀ v, input.description = some v → (applyUpdate p input now).description = v) ∧
    (input.content = none → (applyUpdate p input now).content = p.content) ∧
    (∀ v, input.content = some v → (applyUpdate p input now).content = v) ∧
    (input.thumbnail_url = none → (applyUpdate p input now).thumbnail_url = p.thumbnail_url) ∧
    (∀ v, input.thumbnail_url = some v → (applyUpdate p input now).thumbnail_url = v) ∧
    (input.author = none → (applyUpdate p input now).author = p.author) ∧
    (∀ v, input.author = some v → (applyUpdate p input now).author = v) ∧
    (input.score = none → (applyUpdate p input now).score = p.score) ∧
    (∀ v, input.score = some v → (applyUpdate p input now).score = v) ∧
    (input.comments_count = none → (applyUpdate p input now).comments_count = p.comments_count) ∧
    (∀ v, input.comments_count = some v → (applyUpdate p input now).comments_count = v) ∧
    (input.is_featured = none → (applyUpdate p input now).is_featured = p.is_featured) ∧
    (∀ v, input.is_featured = some v → (applyUpdate p input now).is_featured = v) ∧
    (input.category_id = none → (applyUpdate p input now).category_id = p.category_id) ∧
    (∀ v, input.category_id = some v → (applyUpdate p input now).category_id = v) ∧
    (input.tags = none → (applyUpdate p input now).tags = p.tags) ∧
    (∀ ts, input.tags = some ts →
        (applyUpdate p input now).tags = TagsVal.str (jsonStringifyList ts)) ∧
    (applyUpdate p input now).id = p.id ∧
    (applyUpdate p input now).source_url = p.source_url ∧
    (applyUpdate p input now).source = p.source ∧
    (applyUpdate p input now).published_at = p.published_at ∧
    (applyUpdate p input now).created_at = p.created_at ∧
    (applyUpdate p input now).language = p.language := by
  have hmapcore : db.map (fun a => if a.id = input.id then applyUpdate a input now else a)
      = pre ++ applyUpdate p input now :: post := by
    have h1 : pre.map (fun a => if a.id = input.id then applyUpdate a input now else a)
        = pre := by
      have hcongr : ∀ a ∈ pre, (if a.id = input.id then applyUpdate a input now else a)
          = id a := by
        intro a ha
        simp [if_neg (hpre a ha)]
      rw [List.map_congr_left hcongr, List.map_id]
    have h2 : post.map (fun a => if a.id = input.id then applyUpdate a input now else a)
        = post := by
      have hcongr : ∀ a ∈ post, (if a.id = input.id then applyUpdate a input now else a)
          = id a := by
        intro a ha
        simp [if_neg (hpost a ha)]
      rw [List.map_congr_left hcongr, List.map_id]
    rw [hdb, List.map_append, List.map_cons, h1, h2, if_pos hp]
  have hfind : (pre ++ applyUpdate p input now :: post).find?
      (fun a => decide (a.id = input.id)) = some (applyUpdate p input now) := by
    rw [List.find?_append]
    have hpre2 : pre.find? (fun a => decide (a.id = input.id)) = none :=
      List.find?_eq_none.mpr (by
        intro x hx
        simp [hpre x hx])
    rw [hpre2, Option.none_or]
    apply List.find?_cons_of_pos
    have : (applyUpdate p input now).id = p.id := rfl
    simp [this, hp]
  have hmap : (updateNewsArticle db input now).1 = pre ++ applyUpdate p input now :: post := by
    rw [updateNewsArticle_fst, hmapcore]
  have hres : (updateNewsArticle db input now).2 = Except.ok (applyUpdate p input now) := by
    simp only [updateNewsArticle, hmapcore, hfind]
  refine ⟨hmap, hres, rfl, ?_, ?_, ?_, ?_, ?_, ?_, ?_, ?_, ?_, ?_, ?_, ?_, ?_, ?_, ?_, ?_,
    ?_, ?_, ?_, ?_, rfl, rfl, rfl, rfl, rfl, rfl⟩
  all_goals first
    | (intro h
       simp [applyUpdate, h])
    | (intro v h
       simp [applyUpdate, h])

/-- After an upsert that found an existing row, every per-user row count is
unchanged: the matched rows are rewritten in place with the same user id. -/
theorem prefCount_update_found (db : List UserPreferencesRow)
    (input : UpdateUserPreferencesInput) (newId : Nat) (now : Int) (p : UserPreferencesRow)
    (hfind : db.find? (fun q => q.user_id == input.user_id) = some p) (uid : String) :
    prefCount uid (updateUserPreferences db input newId now).1 = prefCount uid db := by
  have hsome := List.find?_some hfind
  have hpuid : p.user_id = input.user_id := eq_of_beq hsome
  simp only [updateUserPreferences, hfind, prefCount, List.countP_map]
  apply List.countP_congr
  intro q hq
  simp only [Function.comp_apply]
  by_cases hquid : (q.user_id == input.user_id) = true
  · have hq2 : q.user_id = input.user_id := eq_of_beq hquid
    rw [if_pos hquid]
    show (p.user_id == uid) = true ↔ (q.user_id == uid) = true
    rw [hpuid, hq2]
  · rw [if_neg hquid]

/-- One upsert preserves the at-most-one-row-per-user-id invariant. -/
theorem prefCount_step_le (db : List UserPreferencesRow)
    (input : UpdateUserPreferencesInput) (newId : Nat) (now : Int)
    (h : ∀ uid, prefCount uid db ≤ 1) :
    ∀ uid, prefCount uid (updateUserPreferences db input newId now).1 ≤ 1 := by
  intro uid
  cases hfind : db.find? (fun p => p.user_id == input.user_id) with
  | none =>
    simp only [updateUserPreferences, hfind, prefCount, List.countP_append]
    by_cases huid : input.user_id = uid
    · have h0 : db.countP (fun p => p.user_id == uid) = 0 := by
        rw [List.countP_eq_zero]
        intro a ha
        have hnot := List.find?_eq_none.mp hfind a ha
        rw [← huid]
        exact hnot
      rw [h0]
      simp [freshPref, List.countP_cons, huid]
    · have hne : (input.user_id == uid) = false := beq_eq_false_iff_ne.mpr huid
      have hcnt := h uid
      rw [prefCount] at hcnt
      simp only [freshPref, List.countP_cons, List.countP_nil, hne]
      simp
      omega
  | some p =>
    rw [prefCount_update_found db input newId now p hfind uid]
    exact h uid

/-- The invariant survives any sequence of upsert calls. -/
theorem prefCount_foldl_le (calls : List (UpdateUserPreferencesInput × Nat × Int))
    (db : List UserPreferencesRow) (h : ∀ uid, prefCount uid db ≤ 1) :
    ∀ uid, prefCount uid
      (calls.foldl (fun s c => (updateUserPreferences s c.1 c.2.1 c.2.2).1) db) ≤ 1 := by
  induction calls generalizing db with
  | nil => exact h
  | cons c cs ih =>
    exact ih _ (prefCount_step_le _ _ _ _ h)

/-- C1: the preferences write is an upsert keyed by the user identifier:
with no stored row for the id it creates exactly one row; with a stored
row it updates that row in place (row count per id and total length
unchanged, creation timestamp kept, update timestamp refreshed, supplied
fields overwritten, omitted fields preserved, unrelated rows untouched);
and any sequence of calls keeps at most one stored row per user id. -/
theorem C1_preferences_upsert (db : List UserPreferencesRow)
    (input : UpdateUserPreferencesInput) (newId : Nat) (now : Int) :
    (prefCount input.user_id db = 0 →
        prefCount input.user_id (updateUserPreferences db input newId now).1 = 1) ∧
    (∀ p, db.find? (fun q => q.user_id == input.user_id) = some p →
        prefCount input.user_id (updateUserPreferences db input newId now).1
          = prefCount input.user_id db ∧
        (updateUserPreferences db input newId now).1.length = db.length ∧
        (updateUserPreferences db input newId now).2.created_at = p.created_at ∧
        (updateUserPreferences db input newId now).2.updated_at = now ∧
        (updateUserPreferences db input newId now).2.theme = input.theme.getD p.theme ∧
        (updateUserPreferences db input newId now).2.language
          = input.language.getD p.language ∧
        (updateUserPreferences db input newId now).2.categories_order
          = input.categories_order.getD p.categories_order ∧
        (∀ q ∈ db, q.user_id ≠ input.user_id →
            q ∈ (updateUserPreferences db input newId now).1)) ∧
    ((∀ uid, prefCount uid db ≤ 1) →
        ∀ (calls : List (UpdateUserPreferencesInput × Nat × Int)) (uid : String),
        prefCount uid
          (calls.foldl (fun s c => (updateUserPreferences s c.1 c.2.1 c.2.2).1) db) ≤ 1) := by
  refine ⟨?_, ?_, ?_⟩
  · intro h0
    have hfind : db.find? (fun p => p.user_id == input.user_id) = none := by
      rw [List.find?_eq_none]
      intro a ha
      exact (List.countP_eq_zero.mp h0) a ha
    simp only [updateUserPreferences, hfind, prefCount, List.countP_append]
    rw [show db.countP (fun p => p.user_id == input.user_id) = 0 from h0]
    simp [freshPref, List.countP_cons]
  · intro p hfind
    have heq : updateUserPreferences db input newId now
        = (db.map (fun q =>
            if q.user_id == input.user_id then upsertMerge p input now else q),
           upsertMerge p input now) := by
      simp only [updateUserPreferences, hfind]
    refine ⟨prefCount_update_found db input newId now p hfind input.user_id,
      ?_, ?_, ?_, ?_, ?_, ?_, ?_⟩
    · rw [heq]
      exact List.length_map _ _
    · rw [heq]
      rfl
    · rw [heq]
      rfl
    · rw [heq]
      rfl
    · rw [heq]
      rfl
    · rw [heq]
      rfl
    · intro q hq hqne
      have hbeq : (q.user_id == input.user_id) = false := beq_eq_false_iff_ne.mpr hqne
      rw [heq]
      refine List.mem_map.mpr ⟨q, hq, ?_⟩
      rw [if_neg (by simp [hbeq])]
  · intro hinv calls uid
    exact prefCount_foldl_le calls db hinv uid

/-! ### Counterexample and concrete instantiations -/

/-- C6 as literally stated fails on the tags field: supplying
`tags = ["a"]` does not store the supplied array value — the stored row
differs from the one the claim predicts, because the tags column receives
the JSON-stringified string instead. -/
theorem C6_counterexample :
    (updateNewsArticle [rowA] updTags 5).1
      ≠ [{ rowA with updated_at := 5, tags := TagsVal.arr ["a"] }] := by
  decide

/-- C1 instantiated: upserting preferences for the unseen id creates
exactly one stored row for it. -/
theorem C1_witness :
    prefCount "u" (updateUserPreferences [] prefInput1 7 3).1 = 1 :=
  (C1_preferences_upsert [] prefInput1 7 3).1 rfl

/-- C2 instantiated: two homepage requests agreeing only on the language
filter receive the same featured list. -/
theorem C2_witness :
    (getHomepageData dbSample [] (some pagI)).featured_articles
      = (getHomepageData dbSample [] (some pagJ)).featured_articles :=
  (C2_featured_independent dbSample [] pagI pagJ rfl).1

/-- C3 instantiated: total count agrees across requests differing only in
featured-only flag, limit, and offset. -/
theorem C3_witness :
    (getHomepageData dbSample [] (some pagI)).total_articles
      = (getHomepageData dbSample [] (some pagK)).total_articles :=
  (C3_total_count dbSample [] pagI pagK rfl rfl).1

/-- C4 instantiated: a member of the featured result is featured. -/
theorem C4_witness : (rowToNewsArticle rowA).is_featured = true :=
  ((C4_featured_handler dbSample 5 none).1 (rowToNewsArticle rowA) (by decide)).1

/-- C5 instantiated: updating a missing id errors and changes nothing. -/
theorem C5_witness :
    (updateNewsArticle dbSample updMissing 5).1 = dbSample ∧
    (updateNewsArticle dbSample updMissing 5).2 = Except.error UpdateError.notFound :=
  C5_update_not_found dbSample updMissing 5 (by decide)

/-- C6 (amended) instantiated: the updated store rewrites exactly the
matched row in place. -/
theorem C6_witness :
    (updateNewsArticle [rowA] updTags 5).1 = [] ++ applyUpdate rowA updTags 5 :: [] :=
  (C6_update_frame [rowA] updTags 5 [] [] rowA rfl rfl (by simp) (by simp)).1

/-- C7 instantiated: the article whose title contains the query
case-insensitively is returned. -/
theorem C7_witness : rowToNewsArticle rowA ∈ searchArticles dbSample qAlpha :=
  (C7_search_semantics dbSample qAlpha).2.2.2.2 rfl (by decide) rowA (by decide) (by decide)

/-- C8 instantiated: the full category listing is sorted by sort order with
the id tie-break. -/
theorem C8_witness :
    (getCategories [catA, catB, catC] false).Pairwise
      (fun a b => a.sort_order < b.sort_order ∨
        (a.sort_order = b.sort_order ∧ a.id < b.id)) :=
  (C8_categories [catA, catB, catC] false (by decide)).2.2

/-- C9 instantiated: an article created with tags `["a","b"]` reads back
with exactly those tags. -/
theorem C9_witness :
    (createNewsArticle [] createInp 7 3).2.tags = createInp.tags ∧
    createInp.tags = ["a", "b"] :=
  ⟨(C9_tags_roundtrip [] createInp 7 3 (by simp)).1, rfl⟩

/-- C10 instantiated: after an update supplying `["a"]`, the stored tags
value is the JSON-stringified string. -/
theorem C10_witness :
    (applyUpdate rowA updTags 5).tags = TagsVal.str (jsonStringifyList ["a"]) :=
  (C10_update_double_stringify [rowA] updTags 5 ["a"] rfl).2.1
    (applyUpdate rowA updTags 5) (by decide) rfl

end News
